import Mathlib

/-!
# Verification of the ARE_Tlkify string-table engine (`src/tlkify.py`)

Shallow embedding of the `TLK` class and the pure cores of the label-merge
pipeline. Python `int`s are modelled as `Int`, the `text → id` dict
(`self.existing`, insertion-ordered with in-place value replacement) as an
association list, and the `blanks` set (`self.blanks`, a Python `set` of
ints) as a `Finset Int`. `set.pop()` removes an arbitrary element, so `add`
is parametrised by a choice function `pick`. A Python `ValueError` is
modelled as `Option.none`.
-/

namespace Tlkify

/-- `TLK.OFFSET = 16777216`: offset added to table-local ids (tlkify.py line 101). -/
def OFFSET : Int := 16777216

/-- State of a `TLK` object: `values = {language, entries}` plus the
`existing` text→id cache and the `blanks` set (tlkify.py lines 116-126). -/
structure TLK where
  language : Int
  entries : List (Int × String)
  existing : List (String × Int)
  blanks : Finset Int
deriving DecidableEq

/-- A freshly constructed `TLK` (`TLK.__init__`): language 0, no entries,
empty cache, empty blanks set. -/
def emptyTLK : TLK :=
  { language := 0, entries := [], existing := [], blanks := ∅ }

/-- Lookup in a Python dict modelled as an association list: the first
binding of the key (keys are unique under `dictInsert`). -/
def dictLookup (k : String) (d : List (String × Int)) : Option Int :=
  match d with
  | [] => none
  | p :: rest => if p.1 = k then some p.2 else dictLookup k rest

/-- `d[k] = v` on a Python dict: replace the value in place if the key is
present (dicts keep insertion order), else append the new binding. -/
def dictInsert (k : String) (v : Int) (d : List (String × Int)) : List (String × Int) :=
  match d with
  | [] => [(k, v)]
  | p :: rest => if p.1 = k then (k, v) :: rest else p :: dictInsert k v rest

/-- `TLK.__add_item__(id, text)` (lines 140-147): cache
`existing[text] = id + OFFSET` and append `{id, text}` to the entries. -/
def addItem (id : Int) (text : String) (s : TLK) : TLK :=
  { s with existing := dictInsert text (id + OFFSET) s.existing,
           entries := s.entries ++ [(id, text)] }

/-- `TLK.add(text)` (lines 149-158). If `text` is cached, return the cached
value. Otherwise `id = blanks.pop() if blanks else len(self)` — the
arbitrary element removed by `set.pop()` is supplied by `pick` — then
`__add_item__`, and the return value is the freshly cached
`existing[text] = id + OFFSET`. `len(self)` is the entry count (line 131). -/
def add (pick : Finset Int → Int) (text : String) (s : TLK) : Int × TLK :=
  match dictLookup text s.existing with
  | some v => (v, s)
  | none =>
    if s.blanks = ∅ then
      let id : Int := s.entries.length
      (id + OFFSET, addItem id text s)
    else
      let id := pick s.blanks
      (id + OFFSET, addItem id text { s with blanks := s.blanks.erase id })

/-- `max_value` as computed by `TLK.add_id` (line 163):
`max(self.existing.values()) - TLK.OFFSET if len(self.existing) > 0 else 0`. -/
def maxValue (s : TLK) : Int :=
  match s.existing.map Prod.snd with
  | [] => 0
  | v :: vs => vs.foldl max v - OFFSET

/-- `TLK.add_id(id, text)` (lines 160-170). The guard is
`if max_value and id <= max_value: raise ValueError` — Python truthiness of
`max_value` is `max_value ≠ 0`. On success, `__add_item__` and
`blanks.update(range(max_value + 1, id))`, i.e. the union with
`Finset.Ico (max_value + 1) id`. `none` models the raised `ValueError`. -/
def add_id (id : Int) (text : String) (s : TLK) : Option (Int × TLK) :=
  if maxValue s ≠ 0 ∧ id ≤ maxValue s then none
  else
    let s1 := addItem id text s
    some (id + OFFSET, { s1 with blanks := s1.blanks ∪ Finset.Ico (maxValue s + 1) id })

/-- Pure core of `TLK.to_tlk` (lines 324-330): the serialized transport
structure `{language, entries}` with entries sorted by id ascending
(`entries.sort(key=lambda entry: entry['id'])`; Python's sort is stable,
modelled by a stable insertion sort). -/
def to_tlk (s : TLK) : Int × List (Int × String) :=
  (s.language, s.entries.insertionSort (fun a b => a.1 ≤ b.1))

/-- Pure core of `TLK.from_json` (lines 375-396), past the file validation:
hydrates the entries, rebuilds `existing = {entry['text']: entry['id']}`
(note: the raw id, without `OFFSET`) and
`blanks = {id for id in range(max(existing.values())) if id not in existing.values()}`.
`max()` of an empty dict raises `ValueError`, modelled as `none`. -/
def from_json (language : Int) (es : List (Int × String)) : Option TLK :=
  let d := es.foldl (fun acc e => dictInsert e.2 e.1 acc) []
  match d.map Prod.snd with
  | [] => none
  | v :: vs =>
    some { language := language, entries := es, existing := d,
           blanks := (Finset.Ico 0 (vs.foldl max v)).filter
                     (fun i => i ∉ d.map Prod.snd) }

/-- `TLK.__dynamic_plural__(text)` (lines 302-315). In the source,
`case 'ch', 'is', 'sh':` and `case 's', 'x', 'z', 'o':` are Python
*sequence* (tuple) patterns; per the language definition a sequence pattern
never matches a `str` subject, so those two arms are unreachable and the
match falls through them. The reachable arms are the literal patterns `fe`,
`lf`, `f`, `y` and the trailing `return text + 's'`. `text[-2:]` on a short
string is the whole string; `text[-1]` raises `IndexError` on the empty
string, as does `text[-2]` inside the `y` arm when the string has length 1 —
both modelled as `none`. -/
def dynamic_plural (text : String) : Option String :=
  let cs := text.toList
  if String.mk (cs.drop (cs.length - 2)) = "fe" then
    some (String.mk (cs.take (cs.length - 2)) ++ "ves")
  else if String.mk (cs.drop (cs.length - 2)) = "lf" then
    some (String.mk (cs.take (cs.length - 1)) ++ "ves")
  else
    match cs.getLast? with
    | none => none
    | some c =>
      if c = 'f' then some (String.mk (cs.take (cs.length - 1)) ++ "ves")
      else if c = 'y' then
        if cs.length ≥ 2 then
          if cs.getD (cs.length - 2) ' ' ∈ ['a', 'e', 'i', 'o', 'u'] then
            some (text ++ "s")
          else
            some (String.mk (cs.take (cs.length - 1)) ++ "ies")
        else none
      else some (text ++ "s")

/-- Number of designated static columns in `TLK.add_spell_labels`:
`STATIC_COLUMNS = ('Name', 'SpellDesc')` (line 196). -/
def STATIC_COLUMNS_LEN : Nat := 2

/-- The static id formula of `TLK.add_spell_labels` (line 209):
`name_desc_offset + i + len(STATIC_COLUMNS) * df_ids.index`. -/
def staticId (offset : Int) (i : Nat) (r : Int) : Int :=
  offset + i + STATIC_COLUMNS_LEN * r

/-- The `(id, text)` pairs passed to `add_id` by `TLK.add_spell_labels`
(lines 207-217). A row of `df_json` restricted to the two static columns is
`(row index, Name cell, SpellDesc cell)`, a missing (NaN) cell being `none`.
Line 210 masks `df_ids[column]` to NaN wherever `df_json[column]` is NaN,
and the comprehension on lines 213-217 iterates rows then columns and
skips NaN ids (`if pd.notna(...)`), pairing each surviving static id with
the override text `df_json.at[row, column]`. -/
def spellStaticReservations (offset : Int)
    (rows : List (Int × Option String × Option String)) : List (Int × String) :=
  rows.flatMap (fun rc =>
    (match rc.2.1 with
     | some t => [(staticId offset 0 rc.1, t)]
     | none => []) ++
    (match rc.2.2 with
     | some t => [(staticId offset 1 rc.1, t)]
     | none => []))

/-- `df_json.map(self.add, na_action='ignore')` (line 189) over one
sequence of override cells: a missing (NaN) cell is skipped — `self.add`
is not called and the cell stays missing — while each non-missing cell is
replaced by the offset id returned by `add`, threading the `TLK` state
through the traversal. -/
def addCells (pick : Finset Int → Int) (s : TLK) :
    List (Option String) → TLK × List (Option Int)
  | [] => (s, [])
  | none :: rest =>
    let r := addCells pick s rest
    (r.1, none :: r.2)
  | some t :: rest =>
    let a := add pick t s
    let r := addCells pick a.2 rest
    (r.1, some a.1 :: r.2)

/-- One cell of `df_2da.update(df_json, overwrite=True)` (line 190):
`DataFrame.update` never overwrites with NaN values from `other`, so a
missing resolved cell leaves the original 2DA value verbatim, and a
non-missing one replaces it with the id. -/
def mergeCell (orig : String) (resolved : Option Int) : String ⊕ Int :=
  match resolved with
  | none => Sum.inl orig
  | some v => Sum.inr v

/-- Row-wise `update`: merge the original 2DA cells with the resolved
override cells position by position. -/
def mergeRow (origs : List String) (resolved : List (Option Int)) : List (String ⊕ Int) :=
  List.zipWith mergeCell origs resolved

/-- `df.sort_index()` (line 42) on records `(id, payload)`: sort ascending
by id. Modelled with a stable sort (insertion sort), so records with equal
ids keep their file order. -/
def sortById (rs : List (Int × String)) : List (Int × String) :=
  rs.insertionSort (fun a b => a.1 ≤ b.1)

/-- `df.index.duplicated().any()` (line 44): some id occurs more than once. -/
def hasDup : List (Int × String) → Bool
  | [] => false
  | x :: xs => xs.any (fun y => decide (y.1 = x.1)) || hasDup xs

/-- `df[~df.index.duplicated(keep='last')]` (line 47): keep only the last
record of each id. -/
def keepLast : List (Int × String) → List (Int × String)
  | [] => []
  | x :: xs => if xs.any (fun y => decide (y.1 = x.1)) then keepLast xs else x :: keepLast xs

/-- Pure core of `IOHelper.read_labels` (lines 26-48) after the id cast:
sort the records by id; then — only when `silent_warnings` is false *and*
the index has duplicates (the dedup sits inside
`if not silent_warnings and df.index.duplicated().any():`) — drop all but
the last record of each duplicated id. -/
def read_labels (silent_warnings : Bool) (rs : List (Int × String)) : List (Int × String) :=
  let sorted := sortById rs
  if silent_warnings = false ∧ hasDup sorted = true then keepLast sorted else sorted

/-- A concrete choice function for `set.pop()`; used to instantiate `pick`
where the popped element is irrelevant (empty blanks set). -/
def pick0 : Finset Int → Int := fun _ => 0

/-- The table of claim C5: entries `{0: "A", 2: "B"}`, blanks `{1}`, with
the cache `__add_item__` would have built. It is exactly the state produced
by `add("A")` then `add_id(2, "B")` on an empty table. -/
def tableAB : TLK :=
  { language := 0, entries := [(0, "A"), (2, "B")],
    existing := [("A", 0 + OFFSET), ("B", 2 + OFFSET)], blanks := {1} }

/-- C1: the String Table occupancy invariant does not survive `add_id` on a
young table. `add_id(2, "x")` on an empty table leaves entries `{2}` and
blanks `{1}` — the id 0 in `[0, 2]` is neither an entry id nor a blank,
because `blanks.update(range(max_value + 1, id))` starts the backfill at
`max_value + 1 = 1` when the table is empty. Moreover `add_id(0, "a")`
followed by `add_id(0, "b")` produces two entries with the same id 0,
because the guard `if max_value and id <= max_value` is skipped whenever
`max_value == 0`. -/
theorem c1_occupancy_invariant_violated :
    ((add_id 2 "x" emptyTLK).map (fun p => (p.2.entries, p.2.blanks)) =
      some ([(2, "x")], ({1} : Finset Int)) ∧
     (0 : Int) ∉ ({1} : Finset Int)) ∧
    ((add_id 0 "a" emptyTLK).bind (fun p => add_id 0 "b" p.2)).map
      (fun p => p.2.entries.map Prod.fst) = some [0, 0] := by
  decide

/-- C2: `add_id` raising a `ValueError` is *not* equivalent to
`id ≤ current max`. The claim's examples do hold — `add_id(3, "a")` then
`add_id(2, "b")` fails, and `add_id(3, "a")` then `add_id(7, "b")` succeeds
adding exactly `{4, 5, 6}` to the blanks set — but after `add("a")` (which
allocates id 0, so the maximum allocated id is 0) the call `add_id(0, "b")`
succeeds instead of raising, because the guard
`if max_value and id <= max_value` is skipped when `max_value == 0`. -/
theorem c2_add_id_error_condition :
    ((add_id 3 "a" emptyTLK).bind (fun p => add_id 2 "b" p.2) = none) ∧
    (((add_id 3 "a" emptyTLK).bind (fun p => add_id 7 "b" p.2)).map (fun p => p.2.blanks) =
      some ({1, 2, 4, 5, 6} : Finset Int)) ∧
    (({1, 2, 4, 5, 6} : Finset Int) \ ({1, 2} : Finset Int) = {4, 5, 6}) ∧
    ((add pick0 "a" emptyTLK).2.entries.map Prod.fst = [0] ∧
     (add_id 0 "b" (add pick0 "a" emptyTLK).2).isSome = true) := by
  decide

/-- C3: `add_id(5, "x")` on an empty String Table puts exactly
`{1, 2, 3, 4}` — not `{0, 1, 2, 3, 4}` — into the blanks set: the backfill
`blanks.update(range(max_value + 1, id))` starts at 1 because the empty
table's `max_value` is taken to be 0. Id 0 is therefore never offered for
reuse. -/
theorem c3_gap_reservation :
    (add_id 5 "x" emptyTLK).map (fun p => p.2.blanks) = some ({1, 2, 3, 4} : Finset Int) ∧
    (0 : Int) ∉ ({1, 2, 3, 4} : Finset Int) := by
  decide

/-- C5: serializing the table with entries `{0: "A", 2: "B"}` and blanks
`{1}` and deserializing the result reproduces the identical entry list and
the identical blanks set (the blanks being rebuilt as every id in
`[0, max allocated id)` missing from the allocated ids). -/
theorem c5_round_trip :
    (from_json (to_tlk tableAB).1 (to_tlk tableAB).2).map
      (fun s1 => (s1.entries, s1.blanks)) = some (tableAB.entries, tableAB.blanks) ∧
    tableAB = (add_id 2 "B" (add pick0 "A" emptyTLK).2).elim emptyTLK Prod.snd := by
  decide

/-- C6: a String Table hydrated by `from_json` does *not* return offset
ids for texts that were already present: `from_json` caches
`existing = {entry['text']: entry['id']}` with the raw table-local id
(line 391), while `__add_item__` caches `id + OFFSET` (line 143). After
hydrating `{language: 0, entries: [{id: 0, text: "A"}]}`, `add("A")`
returns 0, not `0 + 16777216`. -/
theorem c6_offset_id_return :
    (from_json 0 [((0 : Int), "A")]).map (fun s => (add pick0 "A" s).1) = some 0 ∧
    (0 : Int) ≠ 0 + OFFSET := by
  decide

/-- Looking up a key right after writing it yields the written value. -/
theorem dictLookup_dictInsert (k : String) (v : Int) (d : List (String × Int)) :
    dictLookup k (dictInsert k v d) = some v := by
  induction d with
  | nil => simp [dictInsert, dictLookup]
  | cons p rest ih =>
    by_cases h : p.1 = k <;> simp [dictInsert, dictLookup, h, ih]

/-- C4: `add` is idempotent. For every String Table state, every choice of
the element `set.pop()` removes, and every text `t`: a second `add(t)`
returns the identical id and leaves the state unchanged; one `add` grows
the entry count by at most one; and when `t` is already cached the state
does not change at all. -/
theorem c4_add_idempotent (pick : Finset Int → Int) (s : TLK) (t : String) :
    (add pick t (add pick t s).2).1 = (add pick t s).1 ∧
    (add pick t (add pick t s).2).2 = (add pick t s).2 ∧
    (add pick t s).2.entries.length ≤ s.entries.length + 1 ∧
    (dictLookup t s.existing ≠ none → (add pick t s).2 = s) := by
  cases h : dictLookup t s.existing with
  | some v => simp [add, h]
  | none =>
    by_cases hb : s.blanks = ∅ <;>
      simp [add, h, hb, addItem, dictLookup_dictInsert]

/-- Closed instance of C4 at `s = emptyTLK`, `t = "a"`. -/
theorem c4_add_idempotent_witness :
    (add pick0 "a" (add pick0 "a" emptyTLK).2).1 = (add pick0 "a" emptyTLK).1 ∧
    (add pick0 "a" (add pick0 "a" emptyTLK).2).2 = (add pick0 "a" emptyTLK).2 ∧
    (add pick0 "a" emptyTLK).2.entries.length ≤ emptyTLK.entries.length + 1 ∧
    (dictLookup "a" emptyTLK.existing ≠ none → (add pick0 "a" emptyTLK).2 = emptyTLK) :=
  c4_add_idempotent pick0 emptyTLK "a"

/-- C7: the pluralizer maps "Wife" → "Wives", "Elf" → "Elves",
"Dwarf" → "Dwarves", "City" → "Cities" and "Boy" → "Boys" as claimed, but
"Witch" → "Witchs" and "Class" → "Classs": the arms
`case 'ch', 'is', 'sh':` and `case 's', 'x', 'z', 'o':` are Python tuple
(sequence) patterns, which never match a `str` subject, so the
append-"es" rules — documented in the source's own inline comments as
producing "Witches" and "Classes" — are dead code. -/
theorem c7_pluralization :
    dynamic_plural "Witch" = some "Witchs" ∧
    dynamic_plural "Class" = some "Classs" ∧
    (some "Witchs" ≠ some "Witches" ∧ some "Classs" ≠ some "Classes") ∧
    dynamic_plural "Wife" = some "Wives" ∧
    dynamic_plural "Elf" = some "Elves" ∧
    dynamic_plural "Dwarf" = some "Dwarves" ∧
    dynamic_plural "City" = some "Cities" ∧
    dynamic_plural "Boy" = some "Boys" := by
  decide

/-- C8: the static id for designated-column index `i` at row `r` is
`offset + i + (number of designated columns) × r`; with offset 5000 and two
designated columns this gives 5000, 5001, 5002, 5003 for rows 0-1, columns
0-1; and an id is reserved (paired with a text for `add_id`) only for a row
whose corresponding override cell is non-missing, at the formula's value. -/
theorem c8_static_id_assignment :
    (staticId 5000 0 0 = 5000 ∧ staticId 5000 1 0 = 5001 ∧
     staticId 5000 0 1 = 5002 ∧ staticId 5000 1 1 = 5003) ∧
    ∀ (offset : Int) (rows : List (Int × Option String × Option String))
      (p : Int × String), p ∈ spellStaticReservations offset rows →
      ∃ rc ∈ rows, (rc.2.1 = some p.2 ∧ p.1 = staticId offset 0 rc.1) ∨
                   (rc.2.2 = some p.2 ∧ p.1 = staticId offset 1 rc.1) := by
  refine ⟨by decide, ?_⟩
  intro offset rows p hp
  rw [spellStaticReservations, List.mem_flatMap] at hp
  obtain ⟨rc, hrc, hmem⟩ := hp
  obtain ⟨r, n, d⟩ := rc
  refine ⟨(r, n, d), hrc, ?_⟩
  rcases n with _ | tn <;> rcases d with _ | td <;>
    simp only [List.mem_append, List.mem_singleton, List.not_mem_nil, or_false,
               false_or] at hmem
  · subst hmem
    exact Or.inr ⟨rfl, rfl⟩
  · subst hmem
    exact Or.inl ⟨rfl, rfl⟩
  · rcases hmem with hmem | hmem <;> subst hmem
    · exact Or.inl ⟨rfl, rfl⟩
    · exact Or.inr ⟨rfl, rfl⟩

/-- Closed instance of C8's reservation property at one row with a
non-missing Name cell. -/
theorem c8_static_id_assignment_witness :
    ∃ rc ∈ [((0 : Int), some "A", (none : Option String))],
      (rc.2.1 = some ((5000 : Int), "A").2 ∧ ((5000 : Int), "A").1 = staticId 5000 0 rc.1) ∨
      (rc.2.2 = some ((5000 : Int), "A").2 ∧ ((5000 : Int), "A").1 = staticId 5000 1 rc.1) :=
  c8_static_id_assignment.2 5000 [(0, some "A", none)] (5000, "A") (by decide)

/-- `addCells` threads the String Table through exactly the non-missing
cells: the final state is the fold of `add` over the cells that survive
`na_action='ignore'`. -/
theorem addCells_state (pick : Finset Int → Int) (s : TLK) (row : List (Option String)) :
    (addCells pick s row).1 = (row.filterMap id).foldl (fun st t => (add pick t st).2) s := by
  induction row generalizing s with
  | nil => rfl
  | cons c rest ih => cases c <;> simp [addCells, ih]

/-- A missing cell is still missing after resolution. -/
theorem addCells_get (pick : Finset Int → Int) (s : TLK) (row : List (Option String))
    (j : Nat) (h : row.get? j = some none) :
    (addCells pick s row).2.get? j = some none := by
  induction row generalizing s j with
  | nil => cases h
  | cons c rest ih =>
    cases j with
    | zero =>
      cases c with
      | none => rfl
      | some t => exact absurd (Option.some.inj h) (by simp)
    | succ j =>
      cases c with
      | none => exact ih s j h
      | some t => exact ih (add pick t s).2 j h

/-- A merged row keeps the original value at every position whose resolved
cell is missing. -/
theorem mergeRow_get (origs : List String) (res : List (Option Int)) (j : Nat)
    (h : res.get? j = some none) (h2 : j < origs.length) :
    (mergeRow origs res).get? j = some (Sum.inl (origs.getD j "")) := by
  induction origs generalizing res j with
  | nil => cases h2
  | cons o os ih =>
    cases res with
    | nil => cases h
    | cons r rs =>
      cases j with
      | zero =>
        have : r = none := Option.some.inj h
        subst this
        rfl
      | succ j => exact ih rs j h (Nat.lt_of_succ_lt_succ h2)

/-- C9: for every traversal of override cells, a missing cell is never
passed to id allocation — the final String Table is the fold of `add` over
only the non-missing cells — and the merged output retains the category
table's original value verbatim at every missing position. -/
theorem c9_missing_value_propagation (pick : Finset Int → Int) (s : TLK)
    (row : List (Option String)) (origs : List String) (j : Nat)
    (h1 : row.get? j = some none) (h2 : j < origs.length) :
    (addCells pick s row).1 = (row.filterMap id).foldl (fun st t => (add pick t st).2) s ∧
    (mergeRow origs (addCells pick s row).2).get? j = some (Sum.inl (origs.getD j "")) :=
  ⟨addCells_state pick s row, mergeRow_get origs _ j (addCells_get pick s row j h1) h2⟩

/-- Closed instance of C9: one missing cell against the original value
"keep". -/
theorem c9_missing_value_propagation_witness :
    (addCells pick0 emptyTLK [none]).1 =
      (([none] : List (Option String)).filterMap id).foldl
        (fun st t => (add pick0 t st).2) emptyTLK ∧
    (mergeRow ["keep"] (addCells pick0 emptyTLK [none]).2).get? 0 =
      some (Sum.inl ((["keep"] : List String).getD 0 "")) :=
  c9_missing_value_propagation pick0 emptyTLK [none] ["keep"] 0 rfl (by decide)

/-- Every record kept by `keepLast` is one of the input records. -/
theorem keepLast_subset (l : List (Int × String)) (x : Int × String)
    (h : x ∈ keepLast l) : x ∈ l := by
  induction l with
  | nil => cases h
  | cons a t ih =>
    by_cases hd : t.any (fun y => decide (y.1 = a.1)) = true
    · simp only [keepLast, hd, if_true] at h
      exact List.mem_cons_of_mem a (ih h)
    · simp only [keepLast, hd, if_false] at h
      rcases List.mem_cons.mp h with h | h
      · exact h ▸ List.mem_cons_self a t
      · exact List.mem_cons_of_mem a (ih h)

/-- `keepLast` is the identity on duplicate-free record lists. -/
theorem keepLast_of_not_dup (l : List (Int × String)) (h : hasDup l = false) :
    keepLast l = l := by
  induction l with
  | nil => rfl
  | cons a t ih =>
    rw [hasDup, Bool.or_eq_false_iff] at h
    simp [keepLast, h.1, ih h.2]

/-- Membership in `keepLast l`: exactly the last record of `l` carrying each
id that occurs in `l`. -/
theorem mem_keepLast (l : List (Int × String)) (x : Int × String) :
    x ∈ keepLast l ↔ (l.filter (fun y => decide (y.1 = x.1))).getLast? = some x := by
  induction l with
  | nil => simp [keepLast]
  | cons a t ih =>
    by_cases ha : a.1 = x.1
    · by_cases hd : t.any (fun y => decide (y.1 = a.1)) = true
      · have hfil : t.filter (fun y => decide (y.1 = x.1)) ≠ [] := by
          rcases List.any_eq_true.mp hd with ⟨y, hy, hy2⟩
          have hmemf : y ∈ t.filter (fun y => decide (y.1 = x.1)) := by
            refine List.mem_filter.mpr ⟨hy, ?_⟩
            simp only [decide_eq_true_eq] at hy2 ⊢
            rw [hy2, ha]
          intro hnil
          rw [hnil] at hmemf
          cases hmemf
        obtain ⟨b, bs, hbs⟩ : ∃ b bs, t.filter (fun y => decide (y.1 = x.1)) = b :: bs := by
          cases hfl : t.filter (fun y => decide (y.1 = x.1)) with
          | nil => exact absurd hfl hfil
          | cons b bs => exact ⟨b, bs, rfl⟩
        simp only [keepLast, hd, if_true]
        rw [List.filter_cons_of_pos (by simpa using ha), hbs, List.getLast?_cons_cons, ← hbs]
        exact ih
      · have hfil : t.filter (fun y => decide (y.1 = x.1)) = [] := by
          rw [List.filter_eq_nil_iff]
          intro y hy
          simp only [decide_eq_true_eq]
          intro hyx
          exact hd (List.any_eq_true.mpr ⟨y, hy, by simp [hyx, ha]⟩)
        simp only [keepLast, hd, Bool.false_eq_true, if_false]
        rw [List.filter_cons_of_pos (by simpa using ha), hfil]
        simp only [List.getLast?_singleton, Option.some.injEq]
        constructor
        · intro hmem
          rcases List.mem_cons.mp hmem with h | h
          · exact h.symm
          · exfalso
            exact hd (List.any_eq_true.mpr
              ⟨x, keepLast_subset t x h, by simp [ha]⟩)
        · intro h
          exact h ▸ List.mem_cons_self a (keepLast t)
    · rw [List.filter_cons_of_neg (by simpa using fun h => ha h)]
      by_cases hd : t.any (fun y => decide (y.1 = a.1)) = true
      · simp only [keepLast, hd, if_true]
        exact ih
      · simp only [keepLast, hd, Bool.false_eq_true, if_false]
        rw [List.mem_cons]
        constructor
        · rintro (h | h)
          · exact absurd (congrArg Prod.fst h).symm ha
          · exact ih.mp h
        · intro h
          exact Or.inr (ih.mpr h)

/-- C10 counterexample: with the duplicate warning suppressed
(`silent_warnings = True`), duplicate records are *not* resolved — both
records with id 1 are kept — while with warnings enabled only the last one
is kept. The claim's statement that suppression does not affect which
records are kept is therefore false at the input `[(1, "a"), (1, "b")]`. -/
theorem c10_duplicate_policy_counterexample :
    read_labels true [((1 : Int), "a"), (1, "b")] = [(1, "a"), (1, "b")] ∧
    read_labels true [((1 : Int), "a"), (1, "b")] ≠ [(1, "b")] ∧
    read_labels false [((1 : Int), "a"), (1, "b")] = [(1, "b")] := by
  decide

/-- C10 as amended: when the duplicate warning is suppressed, *no* records
are dropped (the result is a permutation of the input); only when warnings
are enabled does loading keep, for each id, exactly the last record of the
sorted table carrying that id. -/
theorem c10_duplicate_policy_amended :
    (∀ rs : List (Int × String), (read_labels true rs).Perm rs) ∧
    (∀ (rs : List (Int × String)) (x : Int × String),
      x ∈ read_labels false rs ↔
        ((sortById rs).filter (fun y => decide (y.1 = x.1))).getLast? = some x) := by
  constructor
  · intro rs
    rw [read_labels]
    split
    · next hcond => exact absurd hcond.1 (by decide)
    · exact List.perm_insertionSort _ rs
  · intro rs x
    rw [read_labels]
    split
    · exact mem_keepLast _ x
    · next hcond =>
      have hnd : hasDup (sortById rs) = false := by
        cases h : hasDup (sortById rs)
        · rfl
        · exact absurd ⟨rfl, h⟩ hcond
      conv_lhs => rw [← keepLast_of_not_dup (sortById rs) hnd]
      exact mem_keepLast _ x

/-- Closed instance of the amended C10 at the counterexample records. -/
theorem c10_duplicate_policy_witness :
    ((read_labels true [((1 : Int), "a"), (1, "b")]).Perm [((1 : Int), "a"), (1, "b")]) ∧
    (((1 : Int), "b") ∈ read_labels false [((1 : Int), "a"), (1, "b")] ↔
      ((sortById [((1 : Int), "a"), (1, "b")]).filter
        (fun y => decide (y.1 = ((1 : Int), "b").1))).getLast? = some (1, "b")) :=
  ⟨c10_duplicate_policy_amended.1 [(1, "a"), (1, "b")],
   c10_duplicate_policy_amended.2 [(1, "a"), (1, "b")] (1, "b")⟩

end Tlkify
